import Mathlib

/-!
Verification development for the UltimateRTT repository (repototxt.py, bin_ext.py).

The program walks a local directory (or a GitHub repository), filters entries by
ignore glob patterns and a static binary-extension table, decodes file bytes
(UTF-8, then latin-1 fallback), and assembles one text blob.

The shallow embedding below translates the local-directory pipeline of
`src/repototxt.py` into executable Lean definitions:

* a directory is a `DirTree` (named files with byte contents or a read error,
  plus named subdirectories); the list order of entries models the order in
  which the operating system reports them to `os.walk`;
* `fnmatch` models Python's `fnmatch.fnmatch` on POSIX (no case folding);
* `utf8Decode` / `latin1Decode` model strict full-file decoding as performed by
  `open(..., encoding=...).read()`, and `univNewlines` models the universal
  newline translation of text-mode reads;
* the traversal/filter/assembly functions keep the names of the Python
  functions they embed.

`get_local_repo_structure`, `get_local_file_contents` and `get_text` take the
ignore-pattern list explicitly: in the source each of them recomputes
`parse_ignore_patterns(path)`, whose final `list(set(...))` step produces the
patterns in an arbitrary (hash-dependent) order; the theorems about run-to-run
determinism quantify over that order.
-/

/-- A byte, as stored in a file. -/
abbrev Byte := Fin 256

/-- Result of trying to open/read one file: the raw bytes, or the message of a
non-decode exception (permissions, I/O, ...) raised by `open`/`read`. -/
inductive FileData where
  | ok (bytes : List Byte)
  | error (msg : String)
deriving DecidableEq, Repr

/-- A directory: files (name, read outcome) and subdirectories (name, tree),
in the order the operating system would report them to `os.walk`. -/
inductive DirTree where
  | node (files : List (String × FileData)) (subdirs : List (String × DirTree))

/-- The files directly inside a directory. -/
def DirTree.files : DirTree → List (String × FileData)
  | node fs _ => fs

/-- The immediate subdirectories of a directory. -/
def DirTree.subdirs : DirTree → List (String × DirTree)
  | node _ ds => ds

/-- Python's `str.startswith` (string prefix test). -/
def pyStartsWith (s pre : String) : Bool :=
  pre.data.isPrefixOf s.data

/-- Python's `str.endswith` (string suffix test). -/
def pyEndsWith (s suf : String) : Bool :=
  suf.data.reverse.isPrefixOf s.data.reverse

/-- Python's `str.lower()` (modelled for ASCII, which covers the file names
compared in the source). -/
def pyLower (s : String) : String :=
  String.mk (s.data.map Char.toLower)

/-- Splitting a character list at every occurrence of a separator character,
as Python's `str.split(sep)` with a one-character separator: `n` separators
yield `n + 1` (possibly empty) segments. -/
def splitOnChar (sep : Char) : List Char → List (List Char)
  | [] => [[]]
  | c :: rest =>
    if c = sep then [] :: splitOnChar sep rest
    else
      match splitOnChar sep rest with
      | seg :: segs => (c :: seg) :: segs
      | [] => [[c]]

/-- `os.path.join` on POSIX, for the two-argument uses in the source. -/
def pyJoin (a b : String) : String :=
  if pyStartsWith b "/" then b
  else if a = "" then b
  else if pyEndsWith a "/" then a ++ b
  else a ++ "/" ++ b

/-- Relative path of an entry named `name` inside the directory whose path
relative to the walk root is `rel` (`""` for the root itself).  This is the
value of `os.path.relpath(os.path.join(root, name), path)` in the source. -/
def relJoin (rel name : String) : String :=
  if rel = "" then name else rel ++ "/" ++ name

/-- ASCII whitespace stripped by Python's `str.strip()`. -/
def isPySpace (c : Char) : Bool :=
  c = ' ' || c = '\t' || c = '\n' || c = '\r' || c = '\x0b' || c = '\x0c'

/-- Python's `str.strip()` (ASCII whitespace). -/
def pyStrip (s : String) : String :=
  String.mk (((s.data.dropWhile isPySpace).reverse.dropWhile isPySpace).reverse)

/-- Extension part of `os.path.splitext` applied to a basename: the suffix from
the last dot, except that leading dots of the basename never start an
extension (`splitext(".gitignore") = (".gitignore", "")`). -/
def extOfBasename (b : List Char) : List Char :=
  let core := b.dropWhile (fun c => c = '.')
  let revAfter := core.reverse.takeWhile (fun c => c ≠ '.')
  if revAfter.length = core.length then [] else '.' :: revAfter.reverse

/-- `os.path.splitext(p)[1]` on POSIX. -/
def splitextExt (p : String) : String :=
  String.mk (extOfBasename ((p.data.reverse.takeWhile (fun c => c ≠ '/')).reverse))

/-- Scan the body of a `[...]` character class in a glob pattern: given the
characters after the opening bracket (and after an optional leading `!`),
collect the class characters up to the closing `]`, treating a `]` in first
position as a literal member, as `fnmatch.translate` does.  Returns the class
body and the rest of the pattern, or `none` when the class is unterminated
(in which case `[` matches literally). -/
def splitClass (ps : List Char) : Option (List Char × List Char) :=
  let scan : List Char → Option (List Char × List Char) :=
    fun l =>
      let body := l.takeWhile (fun c => c ≠ ']')
      let rest := l.dropWhile (fun c => c ≠ ']')
      match rest with
      | [] => none
      | _ :: r => some (body, r)
  match ps with
  | ']' :: t => (scan t).map (fun p => (']' :: p.1, p.2))
  | _ => scan ps

/-- Membership of a character in a glob character class: `a-b` ranges (by code
point), other characters literally; a `-` in first or last position is a
literal. -/
def classHas : List Char → Char → Bool
  | a :: '-' :: b :: rest, c =>
      (a ≤ c && c ≤ b) || classHas rest c
  | a :: rest, c => a = c || classHas rest c
  | [], _ => false

/-- One step-counted glob matcher: `*` matches any sequence of characters
(including `/`), `?` any single character, `[...]`/`[!...]` a character class,
everything else literally.  The fuel argument only bounds the recursion depth;
every recursive call shrinks the combined length of pattern and string, so
`globMatch` below always supplies enough fuel and the `fuel = 0` arm is never
reached. -/
def globMatchFuel : Nat → List Char → List Char → Bool
  | 0, _, _ => false
  | _ + 1, [], [] => true
  | _ + 1, [], _ :: _ => false
  | n + 1, '*' :: ps, s =>
      globMatchFuel n ps s ||
        (match s with
         | [] => false
         | _ :: s' => globMatchFuel n ('*' :: ps) s')
  | _ + 1, '?' :: _, [] => false
  | n + 1, '?' :: ps, _ :: s => globMatchFuel n ps s
  | n + 1, '[' :: ps, s =>
      (match (match ps with
              | '!' :: t => ((true : Bool), splitClass t)
              | _ => ((false : Bool), splitClass ps)) with
       | (neg, some (cls, ps')) =>
           (match s with
            | [] => false
            | c :: s' => (neg != classHas cls c) && globMatchFuel n ps' s')
       | (_, none) =>
           match s with
           | [] => false
           | c :: s' => c = '[' && globMatchFuel n ps s')
  | _ + 1, _ :: _, [] => false
  | n + 1, p :: ps, c :: s => p = c && globMatchFuel n ps s

/-- Glob matching of `fnmatch.translate` patterns against a whole string. -/
def globMatch (p s : List Char) : Bool :=
  globMatchFuel (p.length + s.length + 1) p s

/-- Python's `fnmatch.fnmatch(name, pattern)` on POSIX (`os.path.normcase` is
the identity there). -/
def fnmatch (name pattern : String) : Bool :=
  globMatch pattern.data name.data

/-- The static binary-extension table of `src/bin_ext.py` (`BINARY_EXTENSIONS`);
the source converts it to a Python set, which does not change membership. -/
def BINARY_EXTENSIONS : List String :=
  [".exe", ".dll", ".so", ".a", ".lib", ".dylib", ".o", ".obj",
   ".zip", ".tar", ".tar.gz", ".tgz", ".rar", ".7z", ".bz2", ".gz", ".xz",
   ".z", ".lz", ".lzma", ".lzo", ".rz", ".sz", ".dz",
   ".pdf", ".doc", ".docx", ".xls", ".xlsx", ".ppt", ".pptx", ".odt",
   ".ods", ".odp",
   ".png", ".jpg", ".jpeg", ".gif", ".mp3", ".mp4", ".wav", ".flac",
   ".ogg", ".avi", ".mkv", ".mov", ".webm", ".wmv", ".m4a", ".aac",
   ".iso", ".vmdk", ".qcow2", ".vdi", ".vhd", ".vhdx", ".ova", ".ovf",
   ".db", ".sqlite", ".mdb", ".accdb", ".frm", ".ibd", ".dbf",
   ".jar", ".class", ".war", ".ear", ".jpi",
   ".pyc", ".pyo", ".pyd", ".egg", ".whl",
   ".deb", ".rpm", ".apk", ".msi", ".dmg", ".pkg", ".bin", ".dat",
   ".data", ".dump", ".img", ".toast", ".vcd", ".crx", ".xpi", ".lock",
   ".lockb", "package-lock.json", "pnpm-lock.yaml",
   ".svg", ".eot", ".otf", ".ttf", ".woff", ".woff2", ".ico", ".icns",
   ".cur", ".cab", ".dmp", ".msp", ".msm",
   ".keystore", ".jks", ".truststore", ".cer", ".crt", ".der", ".p7b",
   ".p7c", ".p12", ".pfx", ".pem", ".csr", ".key", ".pub", ".sig",
   ".pgp", ".gpg",
   ".nupkg", ".snupkg", ".appx", ".msix", ".msp", ".msu", ".deb", ".rpm",
   ".snap", ".flatpak", ".appimage",
   ".ko", ".sys", ".elf",
   ".swf", ".fla", ".swc",
   ".rlib", ".pdb", ".idb", ".pdb", ".dbg",
   ".sdf", ".bak", ".tmp", ".temp", ".log", ".tlog", ".ilk",
   ".bpl", ".dcu", ".dcp", ".dcpil", ".drc",
   ".aps", ".res", ".rsrc", ".rc", ".resx",
   ".prefs", ".properties", ".ini", ".cfg", ".config", ".conf",
   ".DS_Store", ".localized", ".svn", ".git", ".gitignore", ".gitkeep"]

/-- Is `b` a UTF-8 continuation byte (`0x80`–`0xBF`)? -/
def isCont (b : Byte) : Bool := 0x80 ≤ b.val && b.val ≤ 0xBF

/-- Strict UTF-8 decoding of a whole byte sequence, as performed by Python's
`utf-8` codec in strict mode: rejects invalid lead bytes, truncated sequences,
bad continuation bytes, overlong encodings, surrogates and code points above
`U+10FFFF`.  Returns `none` exactly when CPython raises `UnicodeDecodeError`. -/
def utf8Decode : List Byte → Option (List Char)
  | [] => some []
  | b0 :: rest =>
    if b0.val < 0x80 then
      (utf8Decode rest).map (fun cs => Char.ofNat b0.val :: cs)
    else
      match rest with
      | [] => none
      | b1 :: rest1 =>
        if 0xC2 ≤ b0.val && b0.val ≤ 0xDF then
          if isCont b1 then
            (utf8Decode rest1).map
              (fun cs => Char.ofNat ((b0.val - 0xC0) * 0x40 + (b1.val - 0x80)) :: cs)
          else none
        else if b0.val < 0xE0 then none
        else
          match rest1 with
          | [] => none
          | b2 :: rest2 =>
            if b0.val ≤ 0xEF then
              if (if b0.val = 0xE0 then 0xA0 ≤ b1.val && b1.val ≤ 0xBF
                  else if b0.val = 0xED then 0x80 ≤ b1.val && b1.val ≤ 0x9F
                  else isCont b1) && isCont b2 then
                (utf8Decode rest2).map
                  (fun cs => Char.ofNat ((b0.val - 0xE0) * 0x1000 +
                    (b1.val - 0x80) * 0x40 + (b2.val - 0x80)) :: cs)
              else none
            else
              match rest2 with
              | [] => none
              | b3 :: rest3 =>
                if b0.val ≤ 0xF4 then
                  if (if b0.val = 0xF0 then 0x90 ≤ b1.val && b1.val ≤ 0xBF
                      else if b0.val = 0xF4 then 0x80 ≤ b1.val && b1.val ≤ 0x8F
                      else isCont b1) && isCont b2 && isCont b3 then
                    (utf8Decode rest3).map
                      (fun cs => Char.ofNat ((b0.val - 0xF0) * 0x40000 +
                        (b1.val - 0x80) * 0x1000 + (b2.val - 0x80) * 0x40 +
                        (b3.val - 0x80)) :: cs)
                  else none
                else none

/-- Decoding of a single byte by Python's `latin-1` codec: the code point is
the byte value.  The codec interface may reject a byte with no mapping, hence
the `Option`; for latin-1 every byte `0x00`–`0xFF` is mapped. -/
def latin1DecodeByte (b : Byte) : Option Char := some (Char.ofNat b.val)

/-- Strict whole-sequence decoding with the `latin-1` codec: fails if any
byte fails to decode. -/
def latin1Decode : List Byte → Option (List Char)
  | [] => some []
  | b :: rest =>
    match latin1DecodeByte b, latin1Decode rest with
    | some c, some cs => some (c :: cs)
    | _, _ => none

/-- Universal newline translation performed by text-mode reads
(`open(..., "r")` with default `newline=None`): `\r\n` and lone `\r` become
`\n`. -/
def univNewlines : List Char → List Char
  | [] => []
  | '\r' :: '\n' :: rest => '\n' :: univNewlines rest
  | '\r' :: rest => '\n' :: univNewlines rest
  | c :: rest => c :: univNewlines rest

/-- The text produced by `open(file, "r", encoding=...).read()` once the codec
has decoded the bytes. -/
def readText (cs : List Char) : String := String.mk (univNewlines cs)

/-- The lines of one ignore file that survive cleaning in
`parse_ignore_patterns`: each line is stripped, and blank lines and lines
starting with `#` are discarded.  `none` models a missing file
(`FileNotFoundError` is swallowed), which contributes no lines. -/
def survivingLines : Option String → List String
  | none => []
  | some content =>
      (((splitOnChar '\n' content.data).map (fun l => pyStrip (String.mk l)))).filter
        (fun l => l ≠ "" && !(pyStartsWith l "#"))

/-- `parse_ignore_patterns` of `src/repototxt.py`: the surviving lines of
`.gitignore` then `.gptignore`, replaced by the default three patterns when
empty, with duplicates removed (`list(set(...))`; the Python set iterates in
an arbitrary order — this model keeps first occurrences). -/
def parse_ignore_patterns (gitignore gptignore : Option String) : List String :=
  let ignorePatterns := survivingLines gitignore ++ survivingLines gptignore
  let ignorePatterns :=
    if ignorePatterns.isEmpty then [".git", ".gitignore", "**/.env"]
    else ignorePatterns
  ignorePatterns.dedup

/-- The `dirs[:] = [d for d in dirs if d != ".git" and not any(...)]` pruning
used identically in `get_local_repo_structure` and `get_local_file_contents`. -/
def keepDir (ignorePatterns : List String) (d : String) : Bool :=
  d ≠ ".git" && !(ignorePatterns.any (fun pattern => fnmatch d pattern))

/-- File filter of `get_local_repo_structure`: drops files whose full joined
path `os.path.join(root, f)` matches any ignore pattern. -/
def structKeep (ignorePatterns : List String) (absRoot f : String) : Bool :=
  !(ignorePatterns.any (fun pattern => fnmatch (pyJoin absRoot f) pattern))

/-- File filter of `get_local_file_contents`: drops files whose bare name
matches any ignore pattern, and README files (case-insensitively). -/
def contentKeep (ignorePatterns : List String) (f : String) : Bool :=
  !(ignorePatterns.any (fun pattern => fnmatch f pattern)) &&
    pyLower f ≠ "readme.md"

/-- The sequence of `(root, relative root, directory)` triples produced by
`os.walk(path)` under the in-place `dirs[:]` pruning `keep` applied by the
caller: the root is yielded first, then the kept subdirectories are walked in
order. -/
def walkVisit (keep : String → Bool) (absRoot relRoot : String) (t : DirTree) :
    List (String × String × DirTree) :=
  (absRoot, relRoot, t) ::
    (t.subdirs.filter (fun d => keep d.1)).attach.flatMap
      (fun d => walkVisit keep (pyJoin absRoot d.1.1) (relJoin relRoot d.1.1) d.1.2)
termination_by sizeOf t
decreasing_by
  have h1 : d.1 ∈ t.subdirs := List.mem_of_mem_filter d.2
  have h2 : sizeOf d.1 < sizeOf t.subdirs := List.sizeOf_lt_of_mem h1
  cases t with
  | node fs ds =>
    cases hd : d.1 with
    | mk name sub => simp [DirTree.subdirs, hd] at h2 ⊢; omega

/-- `"".join`-style concatenation of a list of strings (the source builds the
output as a Python list of strings and joins it, or accumulates with `+=`,
which produces the same concatenation). -/
def concatList : List String → String
  | [] => ""
  | s :: rest => s ++ concatList rest

/-- The kept file entries of one visited directory in
`get_local_repo_structure`, as pairs of the joined path `os.path.join(root, f)`
(the string matched against the ignore patterns) and the relative path that is
printed. -/
def nodeFileEntries (ignorePatterns : List String) (absRoot relRoot : String)
    (node : DirTree) : List (String × String) :=
  (node.files.filter (fun f => structKeep ignorePatterns absRoot f.1)).map
    (fun f => (pyJoin absRoot f.1, relJoin relRoot f.1))

/-- The lines of the structure listing, in emission order: for each visited
directory, first the kept subdirectories (`relative_path/`), then the kept
files. -/
def structLines (path : String) (t : DirTree) (ignorePatterns : List String) :
    List String :=
  (walkVisit (keepDir ignorePatterns) path "" t).flatMap
    (fun e =>
      ((e.2.2.subdirs.filter (fun d => keepDir ignorePatterns d.1)).map
        (fun d => relJoin e.2.1 d.1 ++ "/\n")) ++
      (nodeFileEntries ignorePatterns e.1 e.2.1 e.2.2).map (fun fe => fe.2 ++ "\n"))

/-- All kept file entries of the structure listing, tagged with the joined
path that was matched against the ignore patterns. -/
def structFileEntries (path : String) (t : DirTree)
    (ignorePatterns : List String) : List (String × String) :=
  (walkVisit (keepDir ignorePatterns) path "" t).flatMap
    (fun e => nodeFileEntries ignorePatterns e.1 e.2.1 e.2.2)

/-- `get_local_repo_structure` of `src/repototxt.py`, with the result of
`parse_ignore_patterns` passed explicitly (see the header comment). -/
def get_local_repo_structure (path : String) (t : DirTree)
    (ignorePatterns : List String) : String :=
  concatList (structLines path t ignorePatterns)

/-- The per-file block construction of `get_local_file_contents`: binary
extensions are skipped unread; otherwise the file is read as UTF-8, on
`UnicodeDecodeError` re-read as latin-1, and any other exception is reported
inline.  `relPath` is `os.path.relpath(file_path, path)` and `fileName` the
bare file name. -/
def processFile (relPath fileName : String) (data : FileData) : String :=
  let contentDescriptor := "File: " ++ relPath ++ "\n"
  if BINARY_EXTENSIONS.contains (splitextExt fileName) then
    contentDescriptor ++ "Content: Skipped binary file\n\n"
  else
    match data with
    | .error e => contentDescriptor ++ "Content: Skipped due to error: " ++ e ++ "\n\n"
    | .ok bytes =>
      match utf8Decode bytes with
      | some cs => contentDescriptor ++ "Content:\n" ++ readText cs ++ "\n\n"
      | none =>
        match latin1Decode bytes with
        | some cs =>
            contentDescriptor ++ "Content (Latin-1 Decoded):\n" ++ readText cs ++ "\n\n"
        | none => contentDescriptor ++ "Content: Skipped due to unsupported encoding\n\n"

/-- The kept `(relative path, file name, read outcome)` entries processed by
the loop of `get_local_file_contents`, in order. -/
def contentEntries (path : String) (t : DirTree) (ignorePatterns : List String) :
    List (String × String × FileData) :=
  (walkVisit (keepDir ignorePatterns) path "" t).flatMap
    (fun e =>
      (e.2.2.files.filter (fun f => contentKeep ignorePatterns f.1)).map
        (fun f => (relJoin e.2.1 f.1, f.1, f.2)))

/-- `get_local_file_contents` of `src/repototxt.py`, with the ignore patterns
passed explicitly. -/
def get_local_file_contents (path : String) (t : DirTree)
    (ignorePatterns : List String) : String :=
  concatList ((contentEntries path t ignorePatterns).map
    (fun e => processFile e.1 e.2.1 e.2.2))

/-- Message text of a CPython exception converted with `str(e)`.  The exact
wording produced by the runtime (for example the byte and offset of a
`UnicodeDecodeError`) is not semantically relevant here and is modelled by a
fixed marker. -/
def utf8ErrorMessage : String := "'utf-8' codec can't decode"

/-- `get_local_readme_content` of `src/repototxt.py`: reads `README.md` (exact
name) from the directory if it exists; a read or decode failure is reported as
an error string; a missing file yields `"README not found."`. -/
def get_local_readme_content (t : DirTree) : String :=
  match t.files.lookup "README.md" with
  | none => "README not found."
  | some (.error e) => "Error reading README file: " ++ e
  | some (.ok bytes) =>
    match utf8Decode bytes with
    | some cs => readText cs
    | none => "Error reading README file: " ++ utf8ErrorMessage

/-- `get_instructions` of `src/repototxt.py`: the instructions template with
every `##REPO_NAME##` replaced by the repository name. -/
def get_instructions (template repoName : String) : String :=
  template.replace "##REPO_NAME##" repoName

/-- `get_text` of `src/repototxt.py` for a local directory (`is_local=True`):
returns the repository name and the assembled text.  The directory tree, the
parsed ignore patterns and the contents of `instructions-prompt.txt` are
passed explicitly. -/
def get_text (repoPath : String) (t : DirTree) (ignorePatterns : List String)
    (instructionsTemplate : String) (noPrompt : Bool) : String × String :=
  let repoName := ((splitOnChar '/' repoPath.data).map String.mk).getLastD ""
  let readmeContent := get_local_readme_content t
  let repoStructure :=
    "Repository Structure: " ++ repoName ++ "\n" ++
      get_local_repo_structure repoPath t ignorePatterns
  let fileContents := get_local_file_contents repoPath t ignorePatterns
  let instructions :=
    if noPrompt then "" else get_instructions instructionsTemplate repoName
  (repoName,
   instructions ++ "\n\nREADME:\n" ++ readmeContent ++ "\n\n" ++ repoStructure ++
     "\n\n" ++ fileContents)

/-- `is_github_repo_url` of `src/repototxt.py`. -/
def is_github_repo_url (inputPath : String) : Bool :=
  pyStartsWith inputPath "https://github.com/"

/-- How a run of the `analyze` command gets past its entry checks:

* `exitOne` — an explicit `raise typer.Exit(code=1)` (both sinks disabled, or
  invalid input path); the process ends with exit status 1;
* `valueErrorTokenMissing` — the GitHub branch was taken but the module-level
  `GITHUB_TOKEN` is unset, so `get_text` raises `ValueError`
  (`src/repototxt.py:334-337`); the exception is not caught anywhere, so the
  process also ends with exit status 1;
* `proceedGithub` / `proceedLocal` — the command proceeds into the fetch and
  output phase (whose own outcome, including later I/O or clipboard failures,
  is outside this model). -/
inductive AnalyzeOutcome where
  | exitOne
  | valueErrorTokenMissing
  | proceedGithub
  | proceedLocal
deriving DecidableEq, Repr

/-- The control flow of the `analyze` command of `src/repototxt.py` up to and
including the `GITHUB_TOKEN` precondition of `get_text`: `inputIsDir` is the
value of `os.path.isdir(input_path)`, and `githubTokenSet` says whether the
module-level `GITHUB_TOKEN` (read from the environment at import time) is
set — the `github_token` command option is never consulted by `get_text`. -/
def analyze (githubTokenSet copyToClipboardOption saveToFileOption : Bool)
    (inputPath : String) (inputIsDir : Bool) : AnalyzeOutcome :=
  if !(copyToClipboardOption || saveToFileOption) then .exitOne
  else if is_github_repo_url inputPath then
    if !githubTokenSet then .valueErrorTokenMissing else .proceedGithub
  else if inputIsDir then .proceedLocal
  else .exitOne

/-! ### Helper lemmas -/

theorem concatList_append (l1 l2 : List String) :
    concatList (l1 ++ l2) = concatList l1 ++ concatList l2 := by
  induction l1 with
  | nil => simp [concatList]
  | cons a t ih => simp [concatList, ih, String.append_assoc]

theorem concatList_split_of_mem {l : List String} {x : String} (h : x ∈ l) :
    ∃ pre post, concatList l = pre ++ x ++ post := by
  obtain ⟨s, t, rfl⟩ := List.append_of_mem h
  refine ⟨concatList s, concatList t, ?_⟩
  rw [concatList_append]
  simp [concatList, String.append_assoc]

theorem any_of_perm {α} {l l' : List α} (h : l.Perm l') (f : α → Bool) :
    l.any f = l'.any f := by
  rw [Bool.eq_iff_iff, List.any_eq_true, List.any_eq_true]
  constructor <;> rintro ⟨a, ha, hf⟩
  · exact ⟨a, h.mem_iff.mp ha, hf⟩
  · exact ⟨a, h.mem_iff.mpr ha, hf⟩

theorem latin1Decode_eq_some (bytes : List Byte) :
    latin1Decode bytes = some (bytes.map (fun b => Char.ofNat b.val)) := by
  induction bytes with
  | nil => rfl
  | cons b rest ih => simp [latin1Decode, latin1DecodeByte, ih]

theorem walkVisit_self (keep : String → Bool) (absRoot relRoot : String)
    (t : DirTree) : (absRoot, relRoot, t) ∈ walkVisit keep absRoot relRoot t := by
  rw [walkVisit]
  exact List.mem_cons_self _ _

theorem walkVisit_leaf (keep : String → Bool) (absRoot relRoot : String)
    (fs : List (String × FileData)) :
    walkVisit keep absRoot relRoot (.node fs []) = [(absRoot, relRoot, .node fs [])] := by
  rw [walkVisit]
  simp [DirTree.subdirs]

theorem contentEntries_mem {path : String} {t : DirTree} {pats : List String}
    {abs rel : String} {node : DirTree} {f : String} {data : FileData}
    (hw : (abs, rel, node) ∈ walkVisit (keepDir pats) path "" t)
    (hf : (f, data) ∈ node.files) (hk : contentKeep pats f = true) :
    (relJoin rel f, f, data) ∈ contentEntries path t pats := by
  unfold contentEntries
  exact List.mem_flatMap.mpr
    ⟨(abs, rel, node), hw,
     List.mem_map.mpr ⟨(f, data), List.mem_filter.mpr ⟨hf, hk⟩, rfl⟩⟩

/-! ### Claim theorems -/

/-- C2: for a non-binary file that was opened successfully,
`get_local_file_contents` first attempts a full UTF-8 decode; if that fails it
attempts exactly one fallback decode with latin-1; if that also fails it emits
the per-file skip marker instead of the content. -/
theorem C2_decode_fallback_chain (relPath fileName : String) (bytes : List Byte)
    (hbin : BINARY_EXTENSIONS.contains (splitextExt fileName) = false) :
    (∀ cs, utf8Decode bytes = some cs →
      processFile relPath fileName (.ok bytes) =
        "File: " ++ relPath ++ "\nContent:\n" ++ readText cs ++ "\n\n") ∧
    (utf8Decode bytes = none → ∀ cs, latin1Decode bytes = some cs →
      processFile relPath fileName (.ok bytes) =
        "File: " ++ relPath ++ "\nContent (Latin-1 Decoded):\n" ++ readText cs ++ "\n\n") ∧
    (utf8Decode bytes = none → latin1Decode bytes = none →
      processFile relPath fileName (.ok bytes) =
        "File: " ++ relPath ++ "\nContent: Skipped due to unsupported encoding\n\n") := by
  have hbin' : splitextExt fileName ∉ BINARY_EXTENSIONS := by simpa using hbin
  refine ⟨fun cs h1 => ?_, fun h1 cs h2 => ?_, fun h1 h2 => ?_⟩ <;>
    simp [processFile, hbin', h1, String.append_assoc, *]

theorem C2_witness :
    processFile "a.txt" "a.txt" (.ok [255]) =
      "File: " ++ "a.txt" ++ "\nContent (Latin-1 Decoded):\n" ++ readText ['\xFF'] ++ "\n\n" :=
  (C2_decode_fallback_chain "a.txt" "a.txt" [255] (by decide)).2.1 (by decide)
    ['\xFF'] (by decide)

/-- C3: a file whose `os.path.splitext` extension is in `BINARY_EXTENSIONS`
always gets the `Skipped binary file` placeholder, whatever its bytes or read
outcome are — the branch never opens or decodes the file. -/
theorem C3_binary_placeholder (relPath fileName : String)
    (h : BINARY_EXTENSIONS.contains (splitextExt fileName) = true) :
    ∀ data, processFile relPath fileName data =
      "File: " ++ relPath ++ "\nContent: Skipped binary file\n\n" := by
  intro data
  have h' : splitextExt fileName ∈ BINARY_EXTENSIONS := by simpa using h
  simp [processFile, h', String.append_assoc]

theorem C3_witness :
    processFile "x.png" "x.png" (.error "unreadable") =
      "File: " ++ "x.png" ++ "\nContent: Skipped binary file\n\n" :=
  C3_binary_placeholder "x.png" "x.png" (by decide) (.error "unreadable")

/-- C9: the latin-1 decode succeeds on every byte sequence, so a non-binary
file that was opened successfully but is not valid UTF-8 always yields the
latin-1 content block — the `Skipped due to unsupported encoding` branch of
`get_local_file_contents` is unreachable. -/
theorem C9_unsupported_branch_unreachable (relPath fileName : String)
    (bytes : List Byte)
    (hbin : BINARY_EXTENSIONS.contains (splitextExt fileName) = false)
    (hutf : utf8Decode bytes = none) :
    ∃ cs, latin1Decode bytes = some cs ∧
      processFile relPath fileName (.ok bytes) =
        "File: " ++ relPath ++ "\nContent (Latin-1 Decoded):\n" ++ readText cs ++ "\n\n" := by
  have hbin' : splitextExt fileName ∉ BINARY_EXTENSIONS := by simpa using hbin
  refine ⟨bytes.map (fun b => Char.ofNat b.val), latin1Decode_eq_some bytes, ?_⟩
  simp [processFile, hbin', hutf, latin1Decode_eq_some bytes, String.append_assoc]

theorem C9_witness :
    ∃ cs, latin1Decode [255, 13] = some cs ∧
      processFile "b.txt" "b.txt" (.ok [255, 13]) =
        "File: " ++ "b.txt" ++ "\nContent (Latin-1 Decoded):\n" ++ readText cs ++ "\n\n" :=
  C9_unsupported_branch_unreachable "b.txt" "b.txt" [255, 13] (by decide) (by decide)

/-- C6: `parse_ignore_patterns` returns the deduplicated, order-independent
union of the surviving lines of both ignore files (blank lines and `#`-lines
discarded); when neither file contributes a pattern — in particular when both
are missing, which raises no error because the model is total in the two
`Option` arguments — it returns the fixed 3-entry default set. -/
theorem C6_parse_ignore_union (gitignore gptignore : Option String) :
    (parse_ignore_patterns gitignore gptignore).Nodup ∧
    (survivingLines gitignore ++ survivingLines gptignore ≠ [] →
      ∀ p, p ∈ parse_ignore_patterns gitignore gptignore ↔
        (p ∈ survivingLines gitignore ∨ p ∈ survivingLines gptignore)) ∧
    (survivingLines gitignore ++ survivingLines gptignore = [] →
      parse_ignore_patterns gitignore gptignore = [".git", ".gitignore", "**/.env"]) := by
  refine ⟨?_, fun h p => ?_, fun h => ?_⟩
  · exact List.nodup_dedup _
  · have hne : (survivingLines gitignore ++ survivingLines gptignore).isEmpty = false := by
      simpa [List.isEmpty_iff] using h
    simp [parse_ignore_patterns, hne, List.mem_dedup]
  · have hne : (survivingLines gitignore ++ survivingLines gptignore).isEmpty = true := by
      simp [List.isEmpty_iff, h]
    simp [parse_ignore_patterns, hne]

theorem C6_witness :
    ("b" ∈ parse_ignore_patterns (some "a\n#c\n\nb") (some "b\nc") ↔
      ("b" ∈ survivingLines (some "a\n#c\n\nb") ∨ "b" ∈ survivingLines (some "b\nc"))) :=
  (C6_parse_ignore_union (some "a\n#c\n\nb") (some "b\nc")).2.1 (by decide) "b"

/-- Counterexample to C8 as stated: with both sinks enabled and a valid GitHub
repository URL — a run outside the claimed exit-1 condition — but with
`GITHUB_TOKEN` unset, `get_text` raises an uncaught `ValueError`
(`src/repototxt.py:334-337`), so the process still terminates with exit
status 1; exit code 1 therefore does not happen *exactly* when both sinks are
disabled or the input path is invalid. -/
theorem C8_counterexample :
    analyze false true true "https://github.com/a/b" false =
      .valueErrorTokenMissing ∧
    ¬(((true : Bool) || true) = false ∨
      (is_github_repo_url "https://github.com/a/b" = false ∧
        (false : Bool) = false)) := by
  constructor
  · decide
  · decide

/-- C8 (amended): the explicit `raise typer.Exit(code=1)` of the `analyze`
command fires exactly when both output sinks are disabled, or when the input
path is neither a GitHub repository URL nor an existing local directory; in
addition, the run aborts with the uncaught `ValueError` of `get_text` — which
also ends the process with exit status 1 — exactly when the command passes the
sink gate, the input is a GitHub repository URL, and `GITHUB_TOKEN` is
unset. -/
theorem C8_exit_paths (githubTokenSet copyOpt saveOpt : Bool)
    (inputPath : String) (inputIsDir : Bool) :
    (analyze githubTokenSet copyOpt saveOpt inputPath inputIsDir = .exitOne ↔
      ((copyOpt || saveOpt) = false ∨
        (is_github_repo_url inputPath = false ∧ inputIsDir = false))) ∧
    (analyze githubTokenSet copyOpt saveOpt inputPath inputIsDir =
        .valueErrorTokenMissing ↔
      ((copyOpt || saveOpt) = true ∧ is_github_repo_url inputPath = true ∧
        githubTokenSet = false)) := by
  cases githubTokenSet <;> cases copyOpt <;> cases saveOpt <;> cases inputIsDir <;>
    cases h : is_github_repo_url inputPath <;> simp [analyze, h]

/-- Counterexample to C1 as stated: with ignore pattern `/r/secret.txt`, the
file `secret.txt` of directory `/r` has a joined path that matches the
pattern — so it is excluded from the structure listing — yet its content block
still appears in the output of `get_local_file_contents`, because the content
pass matches patterns against the bare file name only. -/
theorem C1_counterexample :
    fnmatch (pyJoin "/r" "secret.txt") "/r/secret.txt" = true ∧
    get_local_repo_structure "/r" (.node [("secret.txt", .ok [])] [])
      ["/r/secret.txt"] = "" ∧
    get_local_file_contents "/r" (.node [("secret.txt", .ok [])] [])
      ["/r/secret.txt"] = "File: secret.txt\nContent:\n\n\n" := by
  refine ⟨by decide, ?_, ?_⟩
  · simp only [get_local_repo_structure, structLines, walkVisit_leaf]
    decide
  · simp only [get_local_file_contents, contentEntries, walkVisit_leaf]
    decide

/-- C1 (amended): the two passes filter against different strings.  Every file
listed in the structure output has a joined path `os.path.join(root, f)`
matching no ignore pattern, and every file processed by the content pass has a
bare name matching no ignore pattern; a file is only guaranteed to be excluded
from both when the pattern matches both strings. -/
theorem C1_ignore_filters (path : String) (t : DirTree) (pats : List String) :
    (∀ e ∈ structFileEntries path t pats,
      pats.any (fun pattern => fnmatch e.1 pattern) = false) ∧
    (∀ e ∈ contentEntries path t pats,
      pats.any (fun pattern => fnmatch e.2.1 pattern) = false) := by
  constructor
  · intro e he
    unfold structFileEntries at he
    obtain ⟨w, hw, hin⟩ := List.mem_flatMap.mp he
    unfold nodeFileEntries at hin
    obtain ⟨fp, hf, rfl⟩ := List.mem_map.mp hin
    have hk := (List.mem_filter.mp hf).2
    simpa [structKeep] using hk
  · intro e he
    unfold contentEntries at he
    obtain ⟨w, hw, hin⟩ := List.mem_flatMap.mp he
    obtain ⟨fp, hf, rfl⟩ := List.mem_map.mp hin
    have hk := (List.mem_filter.mp hf).2
    unfold contentKeep at hk
    rw [Bool.and_eq_true] at hk
    simpa using hk.1

theorem C1_witness :
    ["b*"].any (fun pattern => fnmatch "/r/a.txt" pattern) = false :=
  (C1_ignore_filters "/r" (.node [("a.txt", .ok [])] []) ["b*"]).1
    ("/r/a.txt", "a.txt")
    (by simp only [structFileEntries, nodeFileEntries, walkVisit_leaf]; decide)

/-- C4: a non-ignored, non-README, non-binary file whose bytes decode as UTF-8
contributes a `Content:` block holding exactly the text read from it
(`readText cs`, the decoded characters after the universal newline translation
of Python text-mode reads). -/
theorem C4_utf8_exact_text (path : String) (t : DirTree) (pats : List String)
    (abs rel : String) (node : DirTree) (f : String) (bytes : List Byte)
    (cs : List Char)
    (hw : (abs, rel, node) ∈ walkVisit (keepDir pats) path "" t)
    (hf : (f, FileData.ok bytes) ∈ node.files)
    (hig : pats.any (fun pattern => fnmatch f pattern) = false)
    (hrm : pyLower f ≠ "readme.md")
    (hbin : BINARY_EXTENSIONS.contains (splitextExt f) = false)
    (hdec : utf8Decode bytes = some cs) :
    ∃ pre post, get_local_file_contents path t pats =
      pre ++ ("File: " ++ relJoin rel f ++ "\nContent:\n" ++ readText cs ++ "\n\n")
        ++ post := by
  have hk : contentKeep pats f = true := by simp [contentKeep, hig, hrm]
  have hb : processFile (relJoin rel f) f (.ok bytes) ∈
      (contentEntries path t pats).map (fun e => processFile e.1 e.2.1 e.2.2) :=
    List.mem_map.mpr ⟨_, contentEntries_mem hw hf hk, rfl⟩
  have hbin' : splitextExt f ∉ BINARY_EXTENSIONS := by simpa using hbin
  have hpf : processFile (relJoin rel f) f (.ok bytes) =
      "File: " ++ relJoin rel f ++ "\nContent:\n" ++ readText cs ++ "\n\n" := by
    simp [processFile, hbin', hdec, String.append_assoc]
  obtain ⟨pre, post, hsplit⟩ := concatList_split_of_mem hb
  refine ⟨pre, post, ?_⟩
  unfold get_local_file_contents
  rw [hsplit, hpf]

theorem C4_witness :
    ∃ pre post, get_local_file_contents "/r" (.node [("a.txt", .ok [104])] []) [] =
      pre ++ ("File: " ++ relJoin "" "a.txt" ++ "\nContent:\n" ++ readText ['h']
        ++ "\n\n") ++ post :=
  C4_utf8_exact_text "/r" (.node [("a.txt", .ok [104])] []) [] "/r" ""
    (.node [("a.txt", .ok [104])] []) "a.txt" [104] ['h']
    (walkVisit_self _ _ _ _) (by decide) (by decide) (by decide) (by decide)
    (by decide)

/-- C5: a per-file read error (permissions, I/O, ...) in the local content
pass is caught and converted into an inline `Skipped due to error:`
placeholder block for that file; the surrounding run still produces its full
output string — the model of `get_local_file_contents` is a total function
into strings, so no per-file error aborts the whole run. -/
theorem C5_per_file_error_inline (path : String) (t : DirTree)
    (pats : List String) (abs rel : String) (node : DirTree) (f e : String)
    (hw : (abs, rel, node) ∈ walkVisit (keepDir pats) path "" t)
    (hf : (f, FileData.error e) ∈ node.files)
    (hig : pats.any (fun pattern => fnmatch f pattern) = false)
    (hrm : pyLower f ≠ "readme.md")
    (hbin : BINARY_EXTENSIONS.contains (splitextExt f) = false) :
    ∃ pre post, get_local_file_contents path t pats =
      pre ++ ("File: " ++ relJoin rel f ++ "\nContent: Skipped due to error: "
        ++ e ++ "\n\n") ++ post := by
  have hk : contentKeep pats f = true := by simp [contentKeep, hig, hrm]
  have hb : processFile (relJoin rel f) f (.error e) ∈
      (contentEntries path t pats).map (fun e => processFile e.1 e.2.1 e.2.2) :=
    List.mem_map.mpr ⟨_, contentEntries_mem hw hf hk, rfl⟩
  have hbin' : splitextExt f ∉ BINARY_EXTENSIONS := by simpa using hbin
  have hpf : processFile (relJoin rel f) f (.error e) =
      "File: " ++ relJoin rel f ++ "\nContent: Skipped due to error: " ++ e
        ++ "\n\n" := by
    simp [processFile, hbin', String.append_assoc]
  obtain ⟨pre, post, hsplit⟩ := concatList_split_of_mem hb
  refine ⟨pre, post, ?_⟩
  unfold get_local_file_contents
  rw [hsplit, hpf]

theorem C5_witness :
    ∃ pre post,
      get_local_file_contents "/r" (.node [("a.txt", .error "Permission denied")] []) [] =
        pre ++ ("File: " ++ relJoin "" "a.txt" ++ "\nContent: Skipped due to error: "
          ++ "Permission denied" ++ "\n\n") ++ post :=
  C5_per_file_error_inline "/r" (.node [("a.txt", .error "Permission denied")] [])
    [] "/r" "" (.node [("a.txt", .error "Permission denied")] []) "a.txt"
    "Permission denied" (walkVisit_self _ _ _ _) (by decide) (by decide)
    (by decide) (by decide)

theorem keepDir_congr {pats pats' : List String} (h : pats.Perm pats') :
    keepDir pats = keepDir pats' := by
  funext d
  unfold keepDir
  rw [any_of_perm h]

theorem structKeep_congr {pats pats' : List String} (h : pats.Perm pats') :
    structKeep pats = structKeep pats' := by
  funext absRoot f
  unfold structKeep
  rw [any_of_perm h]

theorem contentKeep_congr {pats pats' : List String} (h : pats.Perm pats') :
    contentKeep pats = contentKeep pats' := by
  funext f
  unfold contentKeep
  rw [any_of_perm h]

/-- C7: with the timestamp option disabled, the assembled text depends only on
the directory state.  The only run-to-run variation on identical input is the
order in which Python's `list(set(...))` in `parse_ignore_patterns` emits the
patterns (string hashing is randomized per process); `get_text` produces the
same text for every reordering, so two runs yield byte-identical output.  The
timestamp option itself only affects the name of the output file in
`save_to_file`, never the text. -/
theorem C7_deterministic_text (path : String) (t : DirTree)
    (pats pats' : List String) (tmpl : String) (noPrompt : Bool)
    (h : pats.Perm pats') :
    get_text path t pats tmpl noPrompt = get_text path t pats' tmpl noPrompt := by
  unfold get_text get_local_repo_structure get_local_file_contents structLines
    contentEntries nodeFileEntries
  simp only [keepDir_congr h, structKeep_congr h, contentKeep_congr h]

theorem C7_witness :
    get_text "/r" (.node [("a.txt", .ok [104])] []) ["a", "b"] "T" false =
      get_text "/r" (.node [("a.txt", .ok [104])] []) ["b", "a"] "T" false :=
  C7_deterministic_text "/r" (.node [("a.txt", .ok [104])] []) ["a", "b"]
    ["b", "a"] "T" false (List.Perm.swap "b" "a" [])

/-- Counterexample to C10 as stated: when an ignore pattern matches the
README's joined path (here `*README.md` from a `.gptignore`), `README.md` is
excluded from the content pass — but it does not appear in the structure
listing either, contrary to the claim that it always remains there. -/
theorem C10_counterexample :
    parse_ignore_patterns none (some "*README.md") = ["*README.md"] ∧
    get_local_repo_structure "/r" (.node [("README.md", .ok [])] [])
      ["*README.md"] = "" ∧
    get_local_file_contents "/r" (.node [("README.md", .ok [])] [])
      ["*README.md"] = "" := by
  refine ⟨by decide, ?_, ?_⟩
  · simp only [get_local_repo_structure, structLines, walkVisit_leaf]
    decide
  · simp only [get_local_file_contents, contentEntries, walkVisit_leaf]
    decide

/-- C10 (amended): a file named `README.md` (case-insensitively) never
contributes a per-file content block, and it appears as an entry in the
structure listing whenever no ignore pattern matches its joined path (its text
is instead emitted once in the README section of `get_text`). -/
theorem C10_readme_handling (path : String) (t : DirTree) (pats : List String) :
    (∀ e ∈ contentEntries path t pats, pyLower e.2.1 ≠ "readme.md") ∧
    (∀ abs rel node, (abs, rel, node) ∈ walkVisit (keepDir pats) path "" t →
      ∀ f data, (f, data) ∈ node.files →
        pats.any (fun pattern => fnmatch (pyJoin abs f) pattern) = false →
        ∃ pre post, get_local_repo_structure path t pats =
          pre ++ (relJoin rel f ++ "\n") ++ post) := by
  constructor
  · intro e he
    unfold contentEntries at he
    obtain ⟨w, hw, hin⟩ := List.mem_flatMap.mp he
    obtain ⟨fp, hf, rfl⟩ := List.mem_map.mp hin
    have hk := (List.mem_filter.mp hf).2
    unfold contentKeep at hk
    rw [Bool.and_eq_true] at hk
    simpa using hk.2
  · intro abs rel node hw f data hf hm
    have hk : structKeep pats abs f = true := by simp [structKeep, hm]
    have hfe : (pyJoin abs f, relJoin rel f) ∈ nodeFileEntries pats abs rel node :=
      List.mem_map.mpr ⟨(f, data), List.mem_filter.mpr ⟨hf, hk⟩, rfl⟩
    have hline : (relJoin rel f ++ "\n") ∈ structLines path t pats := by
      unfold structLines
      refine List.mem_flatMap.mpr ⟨(abs, rel, node), hw, ?_⟩
      exact List.mem_append_right _
        (List.mem_map.mpr ⟨(pyJoin abs f, relJoin rel f), hfe, rfl⟩)
    unfold get_local_repo_structure
    exact concatList_split_of_mem hline

theorem C10_witness :
    ∃ pre post,
      get_local_repo_structure "/r" (.node [("README.md", .ok [])] []) [] =
        pre ++ (relJoin "" "README.md" ++ "\n") ++ post :=
  (C10_readme_handling "/r" (.node [("README.md", .ok [])] []) []).2 "/r" ""
    (.node [("README.md", .ok [])] []) (walkVisit_self _ _ _ _) "README.md"
    (.ok []) (by decide) (by decide)
